import Mathlib

/-!
Shallow embedding of the `rust_todo` backend (`src/backend/src/database.rs`,
`src/backend/src/handlers.rs`).

The SQLite table `todos` is modelled as a list of rows.  The `description`
column is nullable (`TEXT` with no `NOT NULL`), so a cell of that column is
an `Option String`; every other column is `NOT NULL`.  The `completed`
column is declared `BOOLEAN` (numeric affinity): the Rust code binds the
strings "0"/"1", which SQLite stores as the integers 0/1, and reads the
column back as an `i32`; we therefore store it as an `Int`.

Failures of `rusqlite` calls are modelled by `DbError`:
`connection` stands for a pool/connectivity failure, `constraintViolation`
for a PRIMARY KEY violation on INSERT, and `nullDescription` for the
`row.get::<_, String>(2)` conversion failing on a NULL cell.

Each storage operation returns its result paired with the number of
executed SQL statements (round trips), mirroring the `conn.execute` /
`stmt.query_map` calls of the source.  The generated UUID and the
`chrono::Utc::now()` timestamp are inputs of `create_todo`.
-/

namespace RustTodo

/-- A row of the `todos` table.  `description` is the one nullable column. -/
structure Row where
  id : String
  title : String
  description : Option String
  completed : Int
  created_at : String
deriving DecidableEq

abbrev Table := List Row

/-- The `Todo` struct of `database.rs`. -/
structure Todo where
  id : String
  title : String
  description : Option String
  completed : Bool
  created_at : String
deriving DecidableEq

/-- The `CreateTodo` request payload of `database.rs`. -/
structure CreateTodo where
  title : String
  description : Option String
deriving DecidableEq

/-- The `UpdateTodo` request payload of `database.rs`. -/
structure UpdateTodo where
  title : Option String
  description : Option String
  completed : Option Bool
deriving DecidableEq

/-- Failure modes of the storage layer. -/
inductive DbError where
  | connection
  | constraintViolation
  | nullDescription
deriving DecidableEq

/-- The row mapper shared by `get_todos` and `get_todo` in `database.rs`:
`row.get::<_, String>(2)` fails on a NULL description; an empty string is
normalized to `None`; `completed` is read as `i32` and compared with 0. -/
def rowToTodo (r : Row) : Except DbError Todo :=
  match r.description with
  | none => .error .nullDescription
  | some desc =>
    .ok { id := r.id, title := r.title,
          description := if desc.isEmpty then none else some desc,
          completed := decide (r.completed ≠ 0),
          created_at := r.created_at }

/-- `SELECT ... FROM todos WHERE id = ?1` (first matching row). -/
def selectById (t : Table) (id : String) : Option Row :=
  t.find? (fun r => r.id == id)

/-- Lexicographic comparison of char lists; this is the order SQLite's
default BINARY collation induces on the UTF-8 encoded `TEXT` values. -/
def charListLe : List Char → List Char → Bool
  | [], _ => true
  | _ :: _, [] => false
  | a :: as, b :: bs =>
    if a < b then true
    else if b < a then false
    else charListLe as bs

/-- String comparison used by `ORDER BY created_at`. -/
def strLe (a b : String) : Bool := charListLe a.data b.data

/-- Insertion of a row into a list sorted by `created_at` descending. -/
def insertRowDesc (r : Row) : List Row → List Row
  | [] => [r]
  | x :: xs =>
    if strLe x.created_at r.created_at then r :: x :: xs
    else x :: insertRowDesc r xs

/-- `ORDER BY created_at DESC`. -/
def sortByCreatedAtDesc : Table → List Row
  | [] => []
  | r :: rs => insertRowDesc r (sortByCreatedAtDesc rs)

/-- Descending order on rows by `created_at` (the order of the result of
`get_todos`), stated with the standard string order. -/
def rowDescOrder (a b : Row) : Prop := b.created_at ≤ a.created_at

/-- The row-collecting loop of `get_todos`: push each converted row,
propagating the first per-row conversion error. -/
def collectRows : List Row → Except DbError (List Todo)
  | [] => .ok []
  | r :: rs =>
    match rowToTodo r with
    | .error e => .error e
    | .ok td =>
      match collectRows rs with
      | .error e => .error e
      | .ok tds => .ok (td :: tds)

/-- `create_todo` of `database.rs`.  The INSERT binds
`description.unwrap_or_default()` (so an absent description is stored as
`""`), the string "0" for `completed`, and fails on a duplicate PRIMARY
KEY.  The returned `Todo` carries the original `description` option.
One executed statement. -/
def create_todo (t : Table) (c : CreateTodo) (id created_at : String) :
    Except DbError (Todo × Table) × Nat :=
  (if (selectById t id).isSome then
    .error .constraintViolation
  else
    .ok ({ id := id, title := c.title, description := c.description,
           completed := false, created_at := created_at },
         t ++ [{ id := id, title := c.title,
                 description := some (c.description.getD ""),
                 completed := 0, created_at := created_at }]), 1)

/-- `get_todos` of `database.rs`: one SELECT, rows ordered by
`created_at` descending, each row converted by the row mapper. -/
def get_todos (t : Table) : Except DbError (List Todo) × Nat :=
  (collectRows (sortByCreatedAtDesc t), 1)

/-- `get_todo` of `database.rs`: one SELECT by id, first row converted by
the row mapper, absent row yielding `Ok(None)`. -/
def get_todo (t : Table) (id : String) : Except DbError (Option Todo) × Nat :=
  (match selectById t id with
   | none => .ok none
   | some r =>
     match rowToTodo r with
     | .error e => .error e
     | .ok td => .ok (some td), 1)

/-- Effect of the dynamically built `UPDATE todos SET ... WHERE id = ?`
on a single matching row: exactly the supplied columns are assigned;
`completed` is bound as "1"/"0" and stored as 1/0. -/
def applyUpdate (u : UpdateTodo) (r : Row) : Row :=
  { r with
    title := match u.title with | some s => s | none => r.title,
    description := match u.description with | some d => some d | none => r.description,
    completed :=
      match u.completed with
      | some true => 1
      | some false => 0
      | none => r.completed }

/-- `updates.is_empty()`: no field of the payload is supplied. -/
def noFields (u : UpdateTodo) : Bool :=
  u.title.isNone && u.description.isNone && u.completed.isNone

/-- `update_todo` of `database.rs`: read the record first (one statement);
absent id returns `Ok(None)`; an empty payload re-reads and returns the
record (two statements); otherwise execute the dynamic UPDATE and re-read
(three statements). -/
def update_todo (t : Table) (id : String) (u : UpdateTodo) :
    Except DbError (Option Todo × Table) × Nat :=
  match (get_todo t id).1 with
  | .error e => (.error e, 1)
  | .ok none => (.ok (none, t), 1)
  | .ok (some _) =>
    if noFields u then
      (match (get_todo t id).1 with
       | .error e => .error e
       | .ok o => .ok (o, t), 2)
    else
      (match (get_todo (t.map (fun r => if r.id == id then applyUpdate u r else r)) id).1 with
       | .error e => .error e
       | .ok o => .ok (o, t.map (fun r => if r.id == id then applyUpdate u r else r)), 3)

/-- `delete_todo` of `database.rs`: one DELETE; the result is
`rows_affected > 0`. -/
def delete_todo (t : Table) (id : String) :
    Except DbError (Bool × Table) × Nat :=
  (.ok (decide (0 < t.countP (fun r => r.id == id)),
        t.filter (fun r => !(r.id == id))), 1)

/-- Bodies of the HTTP responses produced by `handlers.rs`.  `empty` is
the body of a bare `StatusCode` response. -/
inductive RespBody where
  | empty
  | todoJson : Todo → RespBody
  | todoListJson : List Todo → RespBody
  | objJson : List (String × String) → RespBody
deriving DecidableEq

structure Response where
  status : Nat
  body : RespBody
deriving DecidableEq

/-- Whether a response body is a JSON object with an "error" field. -/
def hasErrorField (resp : Response) : Bool :=
  match resp.body with
  | .objJson fields => fields.any (fun kv => kv.1 == "error")
  | _ => false

/-- `get_todos_handler`: `Err(_) => Err(StatusCode::INTERNAL_SERVER_ERROR)`
produces a bare 500 with an empty body. -/
def get_todos_handler (res : Except DbError (List Todo)) : Response :=
  match res with
  | .ok todos => { status := 200, body := .todoListJson todos }
  | .error _ => { status := 500, body := .empty }

/-- `create_todo_handler` of `handlers.rs`. -/
def create_todo_handler (res : Except DbError Todo) : Response :=
  match res with
  | .ok todo => { status := 201, body := .todoJson todo }
  | .error _ =>
    { status := 500, body := .objJson [("error", "Failed to create todo")] }

/-- `get_todo_handler` of `handlers.rs`. -/
def get_todo_handler (res : Except DbError (Option Todo)) : Response :=
  match res with
  | .ok (some todo) => { status := 200, body := .todoJson todo }
  | .ok none =>
    { status := 404, body := .objJson [("error", "Todo not found")] }
  | .error _ =>
    { status := 500, body := .objJson [("error", "Failed to get todo")] }

/-- `update_todo_handler` of `handlers.rs`. -/
def update_todo_handler (res : Except DbError (Option Todo)) : Response :=
  match res with
  | .ok (some todo) => { status := 200, body := .todoJson todo }
  | .ok none =>
    { status := 404, body := .objJson [("error", "Todo not found")] }
  | .error _ =>
    { status := 500, body := .objJson [("error", "Failed to update todo")] }

/-- `delete_todo_handler` of `handlers.rs`. -/
def delete_todo_handler (res : Except DbError Bool) : Response :=
  match res with
  | .ok true =>
    { status := 200, body := .objJson [("message", "Todo deleted successfully")] }
  | .ok false =>
    { status := 404, body := .objJson [("error", "Todo not found")] }
  | .error _ =>
    { status := 500, body := .objJson [("error", "Failed to delete todo")] }

/-- Table states reachable from the empty table by successful mutating
operations of the storage accessor. -/
inductive Reachable : Table → Prop where
  | empty : Reachable []
  | createStep (t : Table) (c : CreateTodo) (id ts : String) (todo : Todo)
      (t2 : Table) : Reachable t →
      (create_todo t c id ts).1 = .ok (todo, t2) → Reachable t2
  | updateStep (t : Table) (id : String) (u : UpdateTodo) (o : Option Todo)
      (t2 : Table) : Reachable t →
      (update_todo t id u).1 = .ok (o, t2) → Reachable t2
  | deleteStep (t : Table) (id : String) (b : Bool) (t2 : Table) :
      Reachable t →
      (delete_todo t id).1 = .ok (b, t2) → Reachable t2

/-- Example rows used to instantiate theorems at concrete inputs. -/
def exRow1 : Row :=
  { id := "a", title := "alpha", description := some "",
    completed := 0, created_at := "2024-01-01T00:00:00Z" }

def exRow2 : Row :=
  { id := "b", title := "beta", description := some "note",
    completed := 1, created_at := "2024-02-01T00:00:00Z" }

/-! ### Properties of the string order used by `ORDER BY created_at DESC` -/

theorem charListLe_total (as bs : List Char) :
    charListLe as bs = true ∨ charListLe bs as = true := by
  induction as generalizing bs with
  | nil => left; rfl
  | cons a as ih =>
    cases bs with
    | nil => right; rfl
    | cons b bs =>
      by_cases hab : a < b
      · left; simp [charListLe, hab]
      · by_cases hba : b < a
        · right; simp [charListLe, hba]
        · rcases ih bs with h | h
          · left; simp [charListLe, hab, hba, h]
          · right; simp [charListLe, hab, hba, h]

theorem charListLe_not_lex (as bs : List Char) (h : charListLe as bs = true) :
    ¬ List.Lex (· < ·) bs as := by
  induction as generalizing bs with
  | nil => intro hlex; cases hlex
  | cons a as ih =>
    cases bs with
    | nil => simp [charListLe] at h
    | cons b bs =>
      intro hlex
      by_cases hab : a < b
      · cases hlex with
        | cons h1 => exact absurd hab (lt_irrefl a)
        | rel h1 => exact absurd hab (asymm h1)
      · by_cases hba : b < a
        · simp [charListLe, hab, hba] at h
        · have heq : a = b := le_antisymm (not_lt.mp hba) (not_lt.mp hab)
          subst heq
          simp [charListLe, hab] at h
          cases hlex with
          | cons h1 => exact ih bs h h1
          | rel h1 => exact absurd h1 (lt_irrefl a)

theorem strLe_total (a b : String) : strLe a b = true ∨ strLe b a = true :=
  charListLe_total a.data b.data

theorem strLe_le {a b : String} (h : strLe a b = true) : a ≤ b := by
  rw [String.le_iff_toList_le]
  refine not_lt.mp ?_
  intro hlt
  exact charListLe_not_lex a.data b.data h hlt

/-! ### Sorting lemmas for `sortByCreatedAtDesc` -/

theorem insertRowDesc_perm (r : Row) (l : List Row) :
    (insertRowDesc r l).Perm (r :: l) := by
  induction l with
  | nil => rfl
  | cons x xs ih =>
    simp only [insertRowDesc]
    split
    · exact List.Perm.refl _
    · exact (ih.cons x).trans (List.Perm.swap r x xs)

theorem sortByCreatedAtDesc_perm (t : Table) : (sortByCreatedAtDesc t).Perm t := by
  induction t with
  | nil => rfl
  | cons r rs ih =>
    exact (insertRowDesc_perm r _).trans (ih.cons r)

theorem insertRowDesc_sorted (r : Row) (l : List Row)
    (h : l.Pairwise rowDescOrder) :
    (insertRowDesc r l).Pairwise rowDescOrder := by
  induction l with
  | nil => simp [insertRowDesc]
  | cons x xs ih =>
    rcases List.pairwise_cons.mp h with ⟨hx, hxs⟩
    simp only [insertRowDesc]
    split
    case isTrue hle =>
      refine List.pairwise_cons.mpr ⟨?_, h⟩
      intro y hy
      rcases List.mem_cons.mp hy with rfl | hyxs
      · exact strLe_le hle
      · exact le_trans (hx y hyxs) (strLe_le hle)
    case isFalse hnle =>
      refine List.pairwise_cons.mpr ⟨?_, ih hxs⟩
      intro y hy
      have hmem := (insertRowDesc_perm r xs).mem_iff.mp hy
      rcases List.mem_cons.mp hmem with rfl | hyxs
      · have hys : strLe y.created_at x.created_at = true := by
          rcases strLe_total x.created_at y.created_at with h1 | h1
          · exact absurd h1 hnle
          · exact h1
        exact strLe_le hys
      · exact hx y hyxs

theorem sortByCreatedAtDesc_sorted (t : Table) :
    (sortByCreatedAtDesc t).Pairwise rowDescOrder := by
  induction t with
  | nil => exact List.Pairwise.nil
  | cons r rs ih => exact insertRowDesc_sorted r _ ih

/-! ### Inversion lemmas for the row mapper and the collecting loop -/

theorem rowToTodo_ok_fields {r : Row} {td : Todo} (h : rowToTodo r = .ok td) :
    ∃ d, r.description = some d ∧
      td = { id := r.id, title := r.title,
             description := if d.isEmpty then none else some d,
             completed := decide (r.completed ≠ 0),
             created_at := r.created_at } := by
  unfold rowToTodo at h
  cases hd : r.description with
  | none => rw [hd] at h; exact absurd h (by simp)
  | some d =>
    rw [hd] at h
    refine ⟨d, rfl, ?_⟩
    simpa using h.symm

theorem rowToTodo_ok_created_at {r : Row} {td : Todo}
    (h : rowToTodo r = .ok td) : td.created_at = r.created_at := by
  rcases rowToTodo_ok_fields h with ⟨d, _, rfl⟩
  rfl

theorem rowToTodo_ok_of_some {r : Row} {d : String}
    (hd : r.description = some d) :
    rowToTodo r = .ok { id := r.id, title := r.title,
                        description := if d.isEmpty then none else some d,
                        completed := decide (r.completed ≠ 0),
                        created_at := r.created_at } := by
  unfold rowToTodo
  rw [hd]

theorem collectRows_ok_forall₂ {rs : List Row} {l : List Todo}
    (h : collectRows rs = .ok l) :
    List.Forall₂ (fun r td => rowToTodo r = .ok td) rs l := by
  induction rs generalizing l with
  | nil =>
    unfold collectRows at h
    simp only [Except.ok.injEq] at h
    subst h
    exact List.Forall₂.nil
  | cons r rs ih =>
    unfold collectRows at h
    cases h1 : rowToTodo r with
    | error e => rw [h1] at h; exact absurd h (by simp)
    | ok td =>
      rw [h1] at h
      cases h2 : collectRows rs with
      | error e => rw [h2] at h; exact absurd h (by simp)
      | ok tds =>
        rw [h2] at h
        simp only [Except.ok.injEq] at h
        subst h
        exact List.Forall₂.cons h1 (ih h2)

theorem collectRows_ok_of_desc {rs : List Row}
    (h : ∀ r ∈ rs, r.description ≠ none) :
    ∃ l, collectRows rs = .ok l := by
  induction rs with
  | nil => exact ⟨[], rfl⟩
  | cons r rs ih =>
    rcases ih (fun x hx => h x (List.mem_cons_of_mem r hx)) with ⟨l, hl⟩
    have hr := h r (List.mem_cons_self r rs)
    cases hd : r.description with
    | none => exact absurd hd hr
    | some d =>
      exact ⟨{ id := r.id, title := r.title,
               description := if d.isEmpty then none else some d,
               completed := decide (r.completed ≠ 0),
               created_at := r.created_at } :: l,
             by simp [collectRows, rowToTodo, hd, hl]⟩

theorem forall₂_mem_left {R : α → β → Prop} {xs : List α} {ys : List β}
    (h : List.Forall₂ R xs ys) {x : α} (hx : x ∈ xs) : ∃ y ∈ ys, R x y := by
  induction h with
  | nil => cases hx
  | cons hr hrest ih =>
    rcases List.mem_cons.mp hx with rfl | hx2
    · exact ⟨_, List.mem_cons_self _ _, hr⟩
    · rcases ih hx2 with ⟨y, hy, hRy⟩
      exact ⟨y, List.mem_cons_of_mem _ hy, hRy⟩

theorem forall₂_mem_right {R : α → β → Prop} {xs : List α} {ys : List β}
    (h : List.Forall₂ R xs ys) {y : β} (hy : y ∈ ys) : ∃ x ∈ xs, R x y := by
  induction h with
  | nil => cases hy
  | cons hr hrest ih =>
    rcases List.mem_cons.mp hy with rfl | hy2
    · exact ⟨_, List.mem_cons_self _ _, hr⟩
    · rcases ih hy2 with ⟨x, hx, hRx⟩
      exact ⟨x, List.mem_cons_of_mem _ hx, hRx⟩

theorem forall₂_pairwise {R : α → β → Prop} {P : α → α → Prop}
    {Q : β → β → Prop} {xs : List α} {ys : List β}
    (h : List.Forall₂ R xs ys) (hp : xs.Pairwise P)
    (himp : ∀ x₁ x₂ y₁ y₂, R x₁ y₁ → R x₂ y₂ → P x₁ x₂ → Q y₁ y₂) :
    ys.Pairwise Q := by
  induction h with
  | nil => exact List.Pairwise.nil
  | cons hr hrest ih =>
    rcases List.pairwise_cons.mp hp with ⟨hx, hxs⟩
    refine List.pairwise_cons.mpr ⟨?_, ih hxs⟩
    intro y hy
    rcases forall₂_mem_right hrest hy with ⟨x, hxmem, hRx⟩
    exact himp _ _ _ _ hr hRx (hx x hxmem)

/-- The dynamically built UPDATE touches exactly the rows whose `id`
matches, and leaves the key of every row unchanged, so a lookup in the
updated table finds the updated image of the row found before. -/
theorem selectById_map_update (t : Table) (id : String) (u : UpdateTodo) :
    selectById (t.map (fun r => if r.id == id then applyUpdate u r else r)) id =
      (selectById t id).map (fun r => if r.id == id then applyUpdate u r else r) := by
  unfold selectById
  rw [List.find?_map]
  have hp : ((fun r : Row => r.id == id) ∘
      fun r => if (r.id == id) = true then applyUpdate u r else r) =
      fun r : Row => r.id == id := by
    funext r
    by_cases h : (r.id == id) = true
    · simp [Function.comp, h, applyUpdate]
    · simp [Function.comp, h]
  rw [hp]

theorem get_todo_none {t : Table} {id : String}
    (hs : selectById t id = none) : (get_todo t id).1 = .ok none := by
  unfold get_todo
  rw [hs]

theorem get_todo_some {t : Table} {id : String} {r : Row} {td : Todo}
    (hs : selectById t id = some r) (hm : rowToTodo r = .ok td) :
    (get_todo t id).1 = .ok (some td) := by
  have h1 : (get_todo t id).1 = (match rowToTodo r with
      | Except.error e => Except.error e
      | Except.ok td2 => Except.ok (some td2)) := by
    unfold get_todo
    rw [hs]
  rw [h1, hm]

/-! ### Claims -/

/-- C1 counterexample: creating a todo with `description = Some ""` returns
a record whose description is `Some ""`, but fetching it by the returned id
yields `None` for the description (the read normalizes the stored empty
string to absent), so the two records are not equal. -/
theorem c1_counterexample :
    (create_todo [] { title := "buy", description := some "" } "id1" "ts1").1 =
      .ok ({ id := "id1", title := "buy", description := some "",
             completed := false, created_at := "ts1" },
           [{ id := "id1", title := "buy", description := some "",
              completed := 0, created_at := "ts1" }])
    ∧ (get_todo [{ id := "id1", title := "buy", description := some "",
                   completed := 0, created_at := "ts1" }] "id1").1 =
      .ok (some { id := "id1", title := "buy", description := none,
                  completed := false, created_at := "ts1" })
    ∧ ({ id := "id1", title := "buy", description := some "",
         completed := false, created_at := "ts1" } : Todo) ≠
      { id := "id1", title := "buy", description := none,
        completed := false, created_at := "ts1" } :=
  ⟨rfl, rfl, by decide⟩

/-- C1 (amended): creating a todo and then fetching it with the returned id
yields a record equal to the one `create` returned, provided the supplied
description is not `Some ""` (an empty-string description is normalized to
absent on read and therefore does not round-trip). -/
theorem c1_create_then_get (t : Table) (c : CreateTodo) (id ts : String)
    (todo : Todo) (t2 : Table)
    (hc : (create_todo t c id ts).1 = .ok (todo, t2))
    (hd : c.description ≠ some "") :
    (get_todo t2 id).1 = .ok (some todo) := by
  unfold create_todo at hc
  simp only at hc
  by_cases hex : (selectById t id).isSome
  · rw [if_pos hex] at hc; exact absurd hc (by simp)
  · rw [if_neg hex] at hc
    simp only [Except.ok.injEq, Prod.mk.injEq] at hc
    obtain ⟨htodo, ht2⟩ := hc
    subst htodo
    subst ht2
    have hnone : selectById t id = none := Option.not_isSome_iff_eq_none.mp hex
    have hsel : selectById
        (t ++ [{ id := id, title := c.title,
                 description := some (c.description.getD ""),
                 completed := 0, created_at := ts }]) id =
        some { id := id, title := c.title,
               description := some (c.description.getD ""),
               completed := 0, created_at := ts } := by
      unfold selectById at hnone ⊢
      rw [List.find?_append, hnone]
      simp
    rw [get_todo_some hsel (rowToTodo_ok_of_some rfl)]
    cases hcd : c.description with
    | none =>
      have hie0 : ("" : String).isEmpty = true := rfl
      simp [hcd, hie0]
    | some s =>
      have hs : s ≠ "" := by intro habs; rw [hcd, habs] at hd; exact hd rfl
      have hie : s.isEmpty = false := by
        rw [← Bool.not_eq_true, String.isEmpty_iff]; exact hs
      simp [hcd, hie]

/-- C1 witness: a concrete create (absent description) followed by a fetch
returns exactly the created record. -/
theorem c1_witness :
    (get_todo [{ id := "w1", title := "milk", description := some "",
                 completed := 0, created_at := "ts" }] "w1").1 =
      .ok (some { id := "w1", title := "milk", description := none,
                  completed := false, created_at := "ts" }) :=
  c1_create_then_get [] { title := "milk", description := none } "w1" "ts"
    { id := "w1", title := "milk", description := none,
      completed := false, created_at := "ts" }
    [{ id := "w1", title := "milk", description := some "",
       completed := 0, created_at := "ts" }]
    rfl (by simp)

/-- C2 counterexample: the list route's storage-error response is a bare
500 produced from `Err(StatusCode::INTERNAL_SERVER_ERROR)`; its body is
empty and carries no JSON `error` field. -/
theorem c2_counterexample :
    get_todos_handler (.error .connection) = { status := 500, body := .empty }
    ∧ hasErrorField (get_todos_handler (.error .connection)) = false :=
  ⟨rfl, rfl⟩

/-- C2 (amended): every failing outcome of the create, get, update and
delete handlers (not-found or storage error) carries a JSON body with an
`error` string field; the list handler's only failing outcome (a storage
error) is instead a bare 500 with an empty body. -/
theorem c2_error_bodies :
    (∀ e : DbError,
      hasErrorField (create_todo_handler (.error e)) = true
      ∧ hasErrorField (get_todo_handler (.error e)) = true
      ∧ hasErrorField (update_todo_handler (.error e)) = true
      ∧ hasErrorField (delete_todo_handler (.error e)) = true
      ∧ get_todos_handler (.error e) = { status := 500, body := .empty })
    ∧ hasErrorField (get_todo_handler (.ok none)) = true
    ∧ hasErrorField (update_todo_handler (.ok none)) = true
    ∧ hasErrorField (delete_todo_handler (.ok false)) = true :=
  ⟨fun _ => ⟨rfl, rfl, rfl, rfl, rfl⟩, rfl, rfl, rfl⟩

/-- C3 counterexample: an update supplying one field on an existing record
executes three statements (existence check, UPDATE, re-read), not one or
two. -/
theorem c3_counterexample :
    (update_todo [exRow1] "a"
      { title := some "x", description := none, completed := none }).2 = 3
    ∧ (update_todo [exRow1] "a"
      { title := some "x", description := none, completed := none }).2 ≠ 1
    ∧ (update_todo [exRow1] "a"
      { title := some "x", description := none, completed := none }).2 ≠ 2 := by
  refine ⟨rfl, ?_, ?_⟩ <;> decide

/-- C3 (amended): create, list, getById and delete each perform exactly one
round trip; update performs between one and three (one when the id is
absent, two for an empty payload, three when at least one field is
supplied). -/
theorem c3_round_trips (t : Table) (c : CreateTodo) (ts idc idq idu idd : String)
    (u : UpdateTodo) :
    (create_todo t c idc ts).2 = 1
    ∧ (get_todos t).2 = 1
    ∧ (get_todo t idq).2 = 1
    ∧ (delete_todo t idd).2 = 1
    ∧ 1 ≤ (update_todo t idu u).2 ∧ (update_todo t idu u).2 ≤ 3 := by
  refine ⟨rfl, rfl, rfl, rfl, ?_, ?_⟩ <;>
  · unfold update_todo
    split
    · simp
    · simp
    · split
      · simp
      · simp

/-- C4: for an existing todo, an update modifies only the supplied fields:
every field not supplied — in particular `id` and `created_at`, which are
never part of the payload — has the same value in the returned record as in
the record stored before the update. -/
theorem c4_update_frame (t : Table) (id : String) (u : UpdateTodo)
    (before : Todo)
    (h : (get_todo t id).1 = .ok (some before)) :
    ∃ after t2, (update_todo t id u).1 = .ok (some after, t2)
      ∧ after.id = before.id
      ∧ after.created_at = before.created_at
      ∧ (u.title = none → after.title = before.title)
      ∧ (u.description = none → after.description = before.description)
      ∧ (u.completed = none → after.completed = before.completed) := by
  unfold get_todo at h
  cases hs : selectById t id with
  | none => rw [hs] at h; exact absurd h (by simp)
  | some r0 =>
    rw [hs] at h
    have h2 : (match rowToTodo r0 with
        | Except.error e => Except.error e
        | Except.ok td2 => Except.ok (some td2)) = Except.ok (some before) := h
    cases hm : rowToTodo r0 with
    | error e => rw [hm] at h2; exact absurd h2 (by simp)
    | ok td =>
      rw [hm] at h2
      simp only [Except.ok.injEq, Option.some.injEq] at h2
      subst h2
      have hget : (get_todo t id).1 = .ok (some td) := get_todo_some hs hm
      rcases rowToTodo_ok_fields hm with ⟨d0, hd0, htd⟩
      subst htd
      by_cases hnf : noFields u = true
      · refine ⟨_, t, ?_, rfl, rfl, fun _ => rfl, fun _ => rfl, fun _ => rfl⟩
        unfold update_todo
        rw [hget, if_pos hnf]
      · have hs' : List.find? (fun r => r.id == id) t = some r0 := hs
        have hr0 : (r0.id == id) = true := by
          have h4 := List.find?_some hs'
          simpa using h4
        have hDapp : (applyUpdate u r0).description =
            some (u.description.getD d0) := by
          unfold applyUpdate
          cases u.description <;> simp [hd0]
        have hafter := rowToTodo_ok_of_some hDapp
        have hsel2 : selectById
            (t.map (fun r => if r.id == id then applyUpdate u r else r)) id =
            some (applyUpdate u r0) := by
          rw [selectById_map_update, hs]
          show some (if (r0.id == id) = true then applyUpdate u r0 else r0) =
            some (applyUpdate u r0)
          rw [if_pos hr0]
        have hget2 := get_todo_some hsel2 hafter
        refine ⟨{ id := (applyUpdate u r0).id, title := (applyUpdate u r0).title,
                  description := if (u.description.getD d0).isEmpty = true then
                    none else some (u.description.getD d0),
                  completed := decide ((applyUpdate u r0).completed ≠ 0),
                  created_at := (applyUpdate u r0).created_at },
                t.map (fun r => if (r.id == id) = true then applyUpdate u r else r),
                ?_, ?_, ?_, ?_, ?_, ?_⟩
        · unfold update_todo
          rw [hget, if_neg hnf, hget2]
        · rfl
        · rfl
        · intro ht
          simp [applyUpdate, ht]
        · intro hdn
          simp [hdn]
        · intro hcn
          simp [applyUpdate, hcn]

/-- C4 witness: updating only the title of a stored record returns a record
whose id, created_at, description and completed are unchanged. -/
theorem c4_witness :
    ∃ after t2,
      (update_todo [exRow2] "b"
        { title := some "newt", description := none, completed := none }).1 =
        .ok (some after, t2)
      ∧ after.id = ({ id := "b", title := "beta", description := some "note",
                      completed := true,
                      created_at := "2024-02-01T00:00:00Z" } : Todo).id
      ∧ after.created_at = ({ id := "b", title := "beta",
                              description := some "note", completed := true,
                              created_at := "2024-02-01T00:00:00Z" } : Todo).created_at
      ∧ (({ title := some "newt", description := none,
            completed := none } : UpdateTodo).title = none →
          after.title = ({ id := "b", title := "beta",
                           description := some "note", completed := true,
                           created_at := "2024-02-01T00:00:00Z" } : Todo).title)
      ∧ (({ title := some "newt", description := none,
            completed := none } : UpdateTodo).description = none →
          after.description = ({ id := "b", title := "beta",
                                 description := some "note", completed := true,
                                 created_at := "2024-02-01T00:00:00Z" } : Todo).description)
      ∧ (({ title := some "newt", description := none,
            completed := none } : UpdateTodo).completed = none →
          after.completed = ({ id := "b", title := "beta",
                               description := some "note", completed := true,
                               created_at := "2024-02-01T00:00:00Z" } : Todo).completed) :=
  c4_update_frame [exRow2] "b"
    { title := some "newt", description := none, completed := none }
    { id := "b", title := "beta", description := some "note",
      completed := true, created_at := "2024-02-01T00:00:00Z" }
    rfl

/-- C5: updating an id that is not present returns the "not found" result
and leaves the table unchanged. -/
theorem c5_update_absent (t : Table) (id : String) (u : UpdateTodo)
    (h : selectById t id = none) :
    (update_todo t id u).1 = .ok (none, t) := by
  unfold update_todo
  rw [get_todo_none h]

/-- C5 witness: updating a nonexistent id on the empty table returns the
not-found result and the unchanged (empty) table. -/
theorem c5_witness :
    (update_todo [] "nope"
      { title := some "x", description := none, completed := none }).1 =
      .ok (none, []) :=
  c5_update_absent [] "nope"
    { title := some "x", description := none, completed := none } rfl

/-- C6: updating an existing id with a payload supplying no fields succeeds
and returns the stored record unchanged, with the table unchanged. -/
theorem c6_update_empty_payload (t : Table) (id : String) (todo : Todo)
    (h : (get_todo t id).1 = .ok (some todo)) :
    (update_todo t id
      { title := none, description := none, completed := none }).1 =
      .ok (some todo, t) := by
  unfold update_todo
  rw [h]
  rfl

/-- C6 witness: an empty-payload update of a stored record returns the
record unchanged. -/
theorem c6_witness :
    (update_todo [exRow2] "b"
      { title := none, description := none, completed := none }).1 =
      .ok (some { id := "b", title := "beta", description := some "note",
                  completed := true, created_at := "2024-02-01T00:00:00Z" },
           [exRow2]) :=
  c6_update_empty_payload [exRow2] "b"
    { id := "b", title := "beta", description := some "note",
      completed := true, created_at := "2024-02-01T00:00:00Z" } rfl

/-- C7: delete removes the record and returns true exactly when a record
with the id was present; deleting the same id again returns false (not a
storage error), which the HTTP layer surfaces as a 404 with an `error`
body. -/
theorem c7_delete_idempotent (t : Table) (id : String) :
    ∃ b t2, (delete_todo t id).1 = .ok (b, t2)
      ∧ (b = true ↔ ∃ r ∈ t, r.id = id)
      ∧ (∀ r ∈ t2, r.id ≠ id)
      ∧ (delete_todo t2 id).1 = .ok (false, t2)
      ∧ delete_todo_handler (((delete_todo t2 id).1).map Prod.fst) =
          { status := 404, body := .objJson [("error", "Todo not found")] } := by
  have hzero : (t.filter (fun r => !(r.id == id))).countP
      (fun r => r.id == id) = 0 := by
    rw [List.countP_eq_zero]
    intro r hr
    have h1 := (List.mem_filter.mp hr).2
    simpa using h1
  have hfix : (t.filter (fun r => !(r.id == id))).filter
      (fun r => !(r.id == id)) = t.filter (fun r => !(r.id == id)) := by
    rw [List.filter_eq_self]
    intro a ha
    exact (List.mem_filter.mp ha).2
  have h3 : (delete_todo (t.filter (fun r => !(r.id == id))) id).1 =
      .ok (false, t.filter (fun r => !(r.id == id))) := by
    unfold delete_todo
    rw [hzero, hfix]
    rfl
  refine ⟨_, _, rfl, ?_, ?_, h3, ?_⟩
  · rw [decide_eq_true_eq, List.countP_pos_iff]
    constructor
    · rintro ⟨r, hr, hp⟩
      exact ⟨r, hr, by simpa using hp⟩
    · rintro ⟨r, hr, hp⟩
      exact ⟨r, hr, by simpa using hp⟩
  · intro r hr
    have h1 := (List.mem_filter.mp hr).2
    simpa using h1
  · rw [h3]
    rfl

/-- C8: list returns all stored todos ordered by `created_at` descending
(most recent first), and the empty store yields the empty sequence rather
than an error. -/
theorem c8_list_sorted_desc (t : Table) (l : List Todo)
    (h : (get_todos t).1 = .ok l) :
    ((get_todos ([] : Table)).1 = .ok ([] : List Todo))
    ∧ l.Pairwise (fun a b : Todo => b.created_at ≤ a.created_at)
    ∧ l.length = t.length
    ∧ (∀ r ∈ t, ∃ td ∈ l, rowToTodo r = .ok td)
    ∧ (∀ td ∈ l, ∃ r ∈ t, rowToTodo r = .ok td) := by
  have hl : collectRows (sortByCreatedAtDesc t) = .ok l := h
  have hf2 := collectRows_ok_forall₂ hl
  refine ⟨rfl, ?_, ?_, ?_, ?_⟩
  · exact forall₂_pairwise hf2 (sortByCreatedAtDesc_sorted t)
      (fun x₁ x₂ y₁ y₂ h1 h2 hp => by
        rw [rowToTodo_ok_created_at h1, rowToTodo_ok_created_at h2]
        exact hp)
  · rw [← hf2.length_eq, (sortByCreatedAtDesc_perm t).length_eq]
  · intro r hr
    exact forall₂_mem_left hf2 ((sortByCreatedAtDesc_perm t).mem_iff.mpr hr)
  · intro td htd
    rcases forall₂_mem_right hf2 htd with ⟨r, hr, hRr⟩
    exact ⟨r, (sortByCreatedAtDesc_perm t).mem_iff.mp hr, hRr⟩

/-- C8 witness: listing a two-row store returns the two records most
recent first. -/
theorem c8_witness :
    ((get_todos ([] : Table)).1 = .ok ([] : List Todo))
    ∧ ([{ id := "b", title := "beta", description := some "note",
          completed := true, created_at := "2024-02-01T00:00:00Z" },
        { id := "a", title := "alpha", description := none,
          completed := false, created_at := "2024-01-01T00:00:00Z" }] :
        List Todo).Pairwise (fun a b : Todo => b.created_at ≤ a.created_at)
    ∧ ([{ id := "b", title := "beta", description := some "note",
          completed := true, created_at := "2024-02-01T00:00:00Z" },
        { id := "a", title := "alpha", description := none,
          completed := false, created_at := "2024-01-01T00:00:00Z" }] :
        List Todo).length = ([exRow1, exRow2] : Table).length
    ∧ (∀ r ∈ ([exRow1, exRow2] : Table),
        ∃ td ∈ ([{ id := "b", title := "beta", description := some "note",
                   completed := true, created_at := "2024-02-01T00:00:00Z" },
                 { id := "a", title := "alpha", description := none,
                   completed := false,
                   created_at := "2024-01-01T00:00:00Z" }] : List Todo),
          rowToTodo r = .ok td)
    ∧ (∀ td ∈ ([{ id := "b", title := "beta", description := some "note",
                  completed := true, created_at := "2024-02-01T00:00:00Z" },
                { id := "a", title := "alpha", description := none,
                  completed := false,
                  created_at := "2024-01-01T00:00:00Z" }] : List Todo),
        ∃ r ∈ ([exRow1, exRow2] : Table), rowToTodo r = .ok td) :=
  c8_list_sorted_desc [exRow1, exRow2]
    [{ id := "b", title := "beta", description := some "note",
       completed := true, created_at := "2024-02-01T00:00:00Z" },
     { id := "a", title := "alpha", description := none,
       completed := false, created_at := "2024-01-01T00:00:00Z" }]
    rfl

/-- C9: a stored record whose description column holds the empty string is
returned with description absent, by both the single-record read and the
list; a non-empty stored description is returned as present, unchanged. -/
theorem c9_description_normalized (t : Table) (id : String) (r : Row)
    (d : String) (hs : selectById t id = some r)
    (hd : r.description = some d) :
    ((get_todo t id).1 = .ok (some
      { id := r.id, title := r.title,
        description := if d = "" then none else some d,
        completed := decide (r.completed ≠ 0), created_at := r.created_at }))
    ∧ ∀ l, (get_todos t).1 = .ok l →
        ∃ td ∈ l, rowToTodo r = .ok td
          ∧ td.description = (if d = "" then none else some d) := by
  have hde : (if d.isEmpty = true then none else some d) =
      (if d = "" then none else some d) := by
    by_cases hc : d = ""
    · subst hc; rfl
    · have hie : d.isEmpty = false := by
        rw [← Bool.not_eq_true, String.isEmpty_iff]
        exact hc
      rw [hie, if_neg hc]
      rfl
  constructor
  · rw [get_todo_some hs (rowToTodo_ok_of_some hd), hde]
  · intro l hl
    have hl' : collectRows (sortByCreatedAtDesc t) = .ok l := hl
    have hf2 := collectRows_ok_forall₂ hl'
    have hs' : List.find? (fun r2 => r2.id == id) t = some r := hs
    have hrmem : r ∈ sortByCreatedAtDesc t :=
      (sortByCreatedAtDesc_perm t).mem_iff.mpr (List.mem_of_find?_eq_some hs')
    rcases forall₂_mem_left hf2 hrmem with ⟨td, htdl, htd⟩
    refine ⟨td, htdl, htd, ?_⟩
    rcases rowToTodo_ok_fields htd with ⟨d2, hd2, rfl⟩
    rw [hd] at hd2
    injection hd2 with hd2e
    subst hd2e
    exact hde

/-- C9 witness: the row stored with the empty-string description is read
back with an absent description by get and by list. -/
theorem c9_witness :
    ((get_todo [exRow1] "a").1 = .ok (some
      { id := exRow1.id,
        title := exRow1.title,
        description := if "" = "" then none else some "",
        completed := decide (exRow1.completed ≠ 0),
        created_at := exRow1.created_at }))
    ∧ ∀ l, (get_todos [exRow1]).1 = .ok l →
        ∃ td ∈ l, rowToTodo exRow1 = .ok td
          ∧ td.description = (if "" = "" then none else some "") :=
  c9_description_normalized [exRow1] "a" exRow1 "" rfl rfl

/-- In every reachable table state, no row has a NULL description: create
stores an empty string for an absent description and update only ever
writes a supplied string. -/
theorem descs_some_of_reachable {t : Table} (h : Reachable t) :
    ∀ r ∈ t, r.description ≠ none := by
  induction h with
  | empty => intro r hr; cases hr
  | createStep t c id ts todo t2 _ hc ih =>
    intro r hr
    unfold create_todo at hc
    simp only at hc
    by_cases hex : (selectById t id).isSome
    · rw [if_pos hex] at hc
      exact absurd hc (by simp)
    · rw [if_neg hex] at hc
      simp only [Except.ok.injEq, Prod.mk.injEq] at hc
      obtain ⟨-, ht2⟩ := hc
      subst ht2
      rcases List.mem_append.mp hr with hmem | hmem
      · exact ih r hmem
      · rcases List.mem_singleton.mp hmem with rfl
        simp
  | updateStep t id u o t2 _ hc ih =>
    intro r hr
    unfold update_todo at hc
    split at hc
    · rename_i e heq
      exact absurd (show (Except.error e : Except DbError (Option Todo × Table)) =
        Except.ok (o, t2) from hc) (by simp)
    · rename_i heq
      have hc2 : (Except.ok (none, t) : Except DbError (Option Todo × Table)) =
        Except.ok (o, t2) := hc
      simp only [Except.ok.injEq, Prod.mk.injEq] at hc2
      obtain ⟨-, ht2⟩ := hc2
      subst ht2
      exact ih r hr
    · rename_i td heq
      split at hc
      · rename_i hnf
        rw [heq] at hc
        have hc2 : (Except.ok (some td, t) : Except DbError (Option Todo × Table)) =
          Except.ok (o, t2) := hc
        simp only [Except.ok.injEq, Prod.mk.injEq] at hc2
        obtain ⟨-, ht2⟩ := hc2
        subst ht2
        exact ih r hr
      · rename_i hnf
        cases hg2 : (get_todo (t.map fun r2 =>
            if (r2.id == id) = true then applyUpdate u r2 else r2) id).1 with
        | error e =>
          rw [hg2] at hc
          exact absurd (show (Except.error e : Except DbError (Option Todo × Table)) =
            Except.ok (o, t2) from hc) (by simp)
        | ok o2 =>
          rw [hg2] at hc
          have hc2 : (Except.ok (o2, t.map fun r2 =>
              if (r2.id == id) = true then applyUpdate u r2 else r2) :
              Except DbError (Option Todo × Table)) = Except.ok (o, t2) := hc
          simp only [Except.ok.injEq, Prod.mk.injEq] at hc2
          obtain ⟨-, ht2⟩ := hc2
          subst ht2
          rcases List.mem_map.mp hr with ⟨r0, hr0, rfl⟩
          show (if (r0.id == id) = true then applyUpdate u r0 else r0).description ≠ none
          by_cases hid : (r0.id == id) = true
          · rw [if_pos hid]
            cases hud : u.description with
            | some d => simp [applyUpdate, hud]
            | none =>
              have hdd : (applyUpdate u r0).description = r0.description := by
                simp [applyUpdate, hud]
              rw [hdd]
              exact ih r0 hr0
          · rw [if_neg hid]
            exact ih r0 hr0
  | deleteStep t id b t2 _ hc ih =>
    intro r hr
    unfold delete_todo at hc
    have hc2 : (Except.ok (decide (0 < t.countP fun r2 => r2.id == id),
        t.filter fun r2 => !(r2.id == id)) :
        Except DbError (Bool × Table)) = Except.ok (b, t2) := hc
    simp only [Except.ok.injEq, Prod.mk.injEq] at hc2
    obtain ⟨-, ht2⟩ := hc2
    subst ht2
    exact ih r (List.mem_of_mem_filter hr)

/-- C10: in every reachable table state the description column of every
row is a (possibly empty) string and never NULL, so the read operations
never take the NULL-description error branch: list and get always return
`Ok`. -/
theorem c10_description_never_null (t : Table) (h : Reachable t) :
    (∀ r ∈ t, r.description ≠ none)
    ∧ (∃ l, (get_todos t).1 = .ok l)
    ∧ (∀ id, ∃ o, (get_todo t id).1 = .ok o) := by
  have hdesc := descs_some_of_reachable h
  refine ⟨hdesc, ?_, ?_⟩
  · rcases collectRows_ok_of_desc
      (fun r hr => hdesc r ((sortByCreatedAtDesc_perm t).mem_iff.mp hr)) with ⟨l, hl⟩
    exact ⟨l, hl⟩
  · intro id
    cases hs : selectById t id with
    | none => exact ⟨none, get_todo_none hs⟩
    | some r =>
      have hs' : List.find? (fun r2 => r2.id == id) t = some r := hs
      have hd := hdesc r (List.mem_of_find?_eq_some hs')
      cases hdd : r.description with
      | none => exact absurd hdd hd
      | some d =>
        exact ⟨some _, get_todo_some hs (rowToTodo_ok_of_some hdd)⟩

/-- C10 witness: the table reached by one successful create has no NULL
description and both reads succeed on it. -/
theorem c10_witness :
    (∀ r ∈ ([{ id := "w1", title := "milk", description := some "",
               completed := 0, created_at := "ts" }] : Table),
      r.description ≠ none)
    ∧ (∃ l, (get_todos [{ id := "w1", title := "milk", description := some "",
                          completed := 0, created_at := "ts" }]).1 = .ok l)
    ∧ (∀ id, ∃ o, (get_todo
        [{ id := "w1", title := "milk",
           description := some "", completed := 0,
           created_at := "ts" }] id).1 = .ok o) :=
  c10_description_never_null
    [{ id := "w1", title := "milk", description := some "",
       completed := 0, created_at := "ts" }]
    (Reachable.createStep [] { title := "milk", description := none }
      "w1" "ts"
      { id := "w1", title := "milk", description := none,
        completed := false, created_at := "ts" }
      [{ id := "w1", title := "milk", description := some "",
         completed := 0, created_at := "ts" }]
      Reachable.empty rfl)

end RustTodo
